import Mathlib

/-!
Shallow embedding of the rustmission key-resolution core:
`rm-config/src/keymap.rs`, `rm-main/src/action.rs`,
`rm-main/src/ui/tabs/torrents/mod.rs` and
`rm-main/src/ui/tabs/torrents/popups/mod.rs`.
Strings are `List Char`; byte lengths are computed with an explicit
UTF-8 width function so that Rust's `str::len` is modelled faithfully.
-/

namespace Rustmission

deriving instance DecidableEq for Except

/-- Modelled from the spec: crossterm `MediaKeyCode`, an external input
crate type; its arms are never inspected by this core, so it is a
placeholder. -/
inductive MediaKeyCode
  | other
deriving DecidableEq

/-- Modelled from the spec: crossterm `ModifierKeyCode`, an external input
crate type; its arms are never inspected by this core. -/
inductive ModifierKeyCode
  | other
deriving DecidableEq

/-- crossterm `KeyCode`: the closed variant set of physical keys, as matched
by `keymap.rs` and `action.rs`. -/
inductive KeyCode
  | Backspace
  | Enter
  | Left
  | Right
  | Up
  | Down
  | Home
  | End
  | PageUp
  | PageDown
  | Tab
  | BackTab
  | Delete
  | Insert
  | F (n : Nat)
  | Char (c : Char)
  | Null
  | Esc
  | CapsLock
  | ScrollLock
  | NumLock
  | PrintScreen
  | Pause
  | Menu
  | KeypadBegin
  | Media (m : MediaKeyCode)
  | Modifier (m : ModifierKeyCode)
deriving DecidableEq

/-- crossterm `KeyModifiers` is a `u8` bitflag set; we model it as the bit
pattern itself. -/
abbrev KeyModifiers := Nat

/-- crossterm `KeyModifiers::NONE` (bit pattern 0). -/
def KeyModifiers.NONE : KeyModifiers := 0

/-- crossterm `KeyModifiers::SHIFT` (bit pattern 0b1). -/
def KeyModifiers.SHIFT : KeyModifiers := 1

/-- crossterm `KeyModifiers::CONTROL` (bit pattern 0b10). -/
def KeyModifiers.CONTROL : KeyModifiers := 2

/-- crossterm `KeyEvent`, restricted to the fields this core reads
(`code` and `modifiers`). -/
structure KeyEvent where
  code : KeyCode
  modifiers : KeyModifiers
deriving DecidableEq

/-- Modelled from the spec: `ErrorPopup` content is external to this core
(`ui/global_popups`); only its presence inside `Action::Error` matters. -/
inductive ErrorPopup
  | mk
deriving DecidableEq

/-- The global `Action` type. The variants are those of
`rm-main/src/action.rs`; `SoftQuit`, `Left`, `Right`, `ScrollDownPage`,
`ScrollUpPage`, `Home` and `End` are modelled from the spec: they are
referenced by the `From` impls in `keymap.rs` but live in the `rm-shared`
crate, which is not under `src/`. -/
inductive Action
  | Quit
  | Render
  | Up
  | Down
  | Confirm
  | Space
  | ShowHelp
  | ShowStats
  | ShowFiles
  | Search
  | Pause
  | DeleteWithoutFiles
  | DeleteWithFiles
  | SwitchToInputMode
  | SwitchToNormalMode
  | ChangeFocus
  | AddMagnet
  | ChangeTab (n : Nat)
  | Input (k : KeyEvent)
  | Error (e : ErrorPopup)
  | SoftQuit
  | Left
  | Right
  | ScrollDownPage
  | ScrollUpPage
  | Home
  | End
deriving DecidableEq

/-- Source `Action::is_render`. -/
def Action.is_render : Action → Bool
  | .Render => true
  | _ => false

/-- transmission_rpc `Id` (external collaborator type): numeric id or hash
string. Named `TorrentId` because `Id` is taken by the Lean core library. -/
inductive TorrentId
  | Id (n : Int)
  | Hash (s : List Char)
deriving DecidableEq

/-- transmission_rpc `TorrentStatus` (external collaborator type). -/
inductive TorrentStatus
  | Stopped
  | QueuedToVerify
  | Verifying
  | QueuedToDownload
  | Downloading
  | QueuedToSeed
  | Seeding
deriving DecidableEq

/-- Source `rm-main/src/action.rs` `TorrentAction`: commands issued to the remote
daemon. The `Add` magnet string, `GetTorrentInfo` result sink and the
`SetArgs` payload are external collaborator data; ids are kept. -/
inductive TorrentAction
  | Add (magnet : List Char)
  | Stop (ids : List TorrentId)
  | Start (ids : List TorrentId)
  | DeleteWithoutFiles (ids : List TorrentId)
  | DeleteWithFiles (ids : List TorrentId)
  | GetTorrentInfo (id : TorrentId)
  | SetArgs (ids : Option (List TorrentId))
deriving DecidableEq

/-- Modelled from the spec: `RustmissionTorrent`
(`rustmission_torrent.rs` is not under `src/`) restricted to the fields
`pause_current_torrent` reads: `id` and `status`. -/
structure RustmissionTorrent where
  id : TorrentId
  status : TorrentStatus
deriving DecidableEq

/-- Outcome of Rust code that may `panic!` / hit a `todo!()` arm or an
`unwrap`: either a panic or a returned value. -/
inductive PanicOr (α : Type)
  | panic
  | ret (a : α)
deriving DecidableEq

/-- Source `keymap.rs` `GeneralAction`: the `general` context's action catalog. -/
inductive GeneralAction
  | ShowHelp
  | Quit
  | SoftQuit
  | SwitchToTorrents
  | SwitchToSearch
  | Left
  | Right
  | Down
  | Up
  | Search
  | SwitchFocus
  | Confirm
  | ScrollPageDown
  | ScrollPageUp
  | GoToBeginning
  | GoToEnd
deriving DecidableEq

/-- The `impl From<GeneralAction> for Action` conversion in `keymap.rs`. -/
def GeneralAction.toAction : GeneralAction → Action
  | .ShowHelp => .ShowHelp
  | .Quit => .Quit
  | .SoftQuit => .SoftQuit
  | .SwitchToTorrents => .ChangeTab 1
  | .SwitchToSearch => .ChangeTab 2
  | .Left => .Left
  | .Right => .Right
  | .Down => .Down
  | .Up => .Up
  | .Search => .Search
  | .SwitchFocus => .ChangeFocus
  | .Confirm => .Confirm
  | .ScrollPageDown => .ScrollDownPage
  | .ScrollPageUp => .ScrollUpPage
  | .GoToBeginning => .Home
  | .GoToEnd => .End

/-- Source `keymap.rs` `TorrentsAction`: the `torrents_tab` context's action
catalog. -/
inductive TorrentsAction
  | AddMagnet
  | Pause
  | DeleteWithFiles
  | DeleteWithoutFiles
  | ShowFiles
  | ShowStats
deriving DecidableEq

/-- The `impl From<TorrentsAction> for Action` conversion in `keymap.rs`. -/
def TorrentsAction.toAction : TorrentsAction → Action
  | .AddMagnet => .AddMagnet
  | .Pause => .Pause
  | .DeleteWithFiles => .DeleteWithFiles
  | .DeleteWithoutFiles => .DeleteWithoutFiles
  | .ShowFiles => .ShowFiles
  | .ShowStats => .ShowStats

/-- Source `keymap.rs` `KeyModifier`: the configuration-level modifier. -/
inductive KeyModifier
  | None
  | Ctrl
  | Shift
deriving DecidableEq

/-- Source `KeyModifier::to_str`. -/
def KeyModifier.to_str : KeyModifier → List Char
  | .None => "".toList
  | .Ctrl => "CTRL".toList
  | .Shift => "SHIFT".toList

/-- Source `KeyModifier::is_none`. -/
def KeyModifier.is_none (m : KeyModifier) : Bool := m == KeyModifier.None

/-- The `impl From<KeyModifier> for KeyModifiers` conversion in `keymap.rs`. -/
def KeyModifier.toKeyModifiers : KeyModifier → KeyModifiers
  | .None => KeyModifiers.NONE
  | .Ctrl => KeyModifiers.CONTROL
  | .Shift => KeyModifiers.SHIFT

/-- Source `keymap.rs` `Keybinding<T>`. -/
structure Keybinding (T : Type) where
  onKey : KeyCode
  modifier : KeyModifier
  action : T
deriving DecidableEq

/-- Decimal rendering of a function-key index, as produced by
`format!("F{i}")`. -/
def fKeyString (n : Nat) : List Char := 'F' :: (Nat.repr n).toList

/-- The per-`KeyCode` part of `Keybinding::keycode_string`. The `todo!()`
arms of the source are panics. -/
def keycodeDisplay : KeyCode → PanicOr (List Char)
  | .Backspace => .ret "Backspace".toList
  | .Enter => .ret "Enter".toList
  | .Left => .ret "".toList
  | .Right => .ret "".toList
  | .Up => .ret "".toList
  | .Down => .ret "".toList
  | .Home => .ret "Home".toList
  | .End => .ret "End".toList
  | .PageUp => .ret "PageUp".toList
  | .PageDown => .ret "PageDown".toList
  | .Tab => .ret "Tab".toList
  | .BackTab => .panic
  | .Delete => .panic
  | .Insert => .ret "Insert".toList
  | .F i => .ret (fKeyString i)
  | .Char c => .ret [c]
  | .Null => .panic
  | .Esc => .ret "Esc".toList
  | .CapsLock => .panic
  | .ScrollLock => .panic
  | .NumLock => .panic
  | .PrintScreen => .panic
  | .Pause => .panic
  | .Menu => .panic
  | .KeypadBegin => .panic
  | .Media _ => .panic
  | .Modifier _ => .panic

/-- Source `Keybinding::keycode_string`: display string of the chord, prefixed
with `"<MODIFIER>-"` when a modifier is present. -/
def Keybinding.keycode_string {T : Type} (kb : Keybinding T) : PanicOr (List Char) :=
  match keycodeDisplay kb.onKey with
  | .panic => .panic
  | .ret key =>
    if !kb.modifier.is_none then .ret (kb.modifier.to_str ++ '-' :: key)
    else .ret key

/-- The configuration-error taxonomy of spec section 7, with the serde
unknown-variant error on a modifier value as `UnknownModifier`. -/
inductive KeyField
  | onKey
  | modifier
  | action
deriving DecidableEq

/-- Configuration errors raised while deserializing a keybinding entry. -/
inductive ConfigError
  | InvalidKeySpec
  | UnknownKeyToken
  | DuplicateField (f : KeyField)
  | MissingField (f : KeyField)
  | UnknownAction
  | UnknownModifier
deriving DecidableEq

/-- Byte width of a character under UTF-8, modelling Rust `str::len`
accounting. -/
def utf8Len (c : Char) : Nat :=
  if c.toNat < 0x80 then 1
  else if c.toNat < 0x800 then 2
  else if c.toNat < 0x10000 then 3
  else 4

/-- Rust `str::len`: total UTF-8 byte length of a token. -/
def strLen : List Char → Nat
  | [] => 0
  | c :: rest => utf8Len c + strLen rest

/-- Per-character lowercase as performed by Rust `str::to_lowercase`,
restricted to the mappings whose output is plain ASCII: the letters A-Z
and U+212A KELVIN SIGN (the only code point outside A-Z whose Unicode
lowercase is an ASCII character). Every other character lowercases to a
string containing a non-ASCII character (for example U+0130 maps to `i`
followed by U+0307, and the final-sigma rule only ever yields Greek
letters), so keeping such characters fixed is outcome-equivalent for the
comparisons against the thirteen ASCII literal tokens that `visit_map`
performs. -/
def charLower (c : Char) : Char :=
  if c.toNat = 0x212A then 'k' else c.toLower

/-- Rust `str::to_lowercase` of a token, as compared against the ASCII
literal table (see `charLower` for the faithfulness argument). -/
def lowerStr (s : List Char) : List Char := s.map charLower

/-- ASCII decimal digit test, as performed by Rust's `u8::from_str`. -/
def isDigitB (c : Char) : Bool := decide (48 ≤ c.toNat ∧ c.toNat ≤ 57)

/-- Decimal value accumulated by `u8::from_str` over a digit string. -/
def digitsVal (d : List Char) : Nat := d.foldl (fun a c => a * 10 + (c.toNat - 48)) 0

/-- Source `u8::from_str` skips one optional leading plus sign. -/
def stripPlus (s : List Char) : List Char :=
  match s with
  | c :: rest => if c = '+' then rest else s
  | [] => s

/-- Rust `str::parse::<u8>()`: optional plus sign, nonempty all-digit
remainder, value within `u8` range. -/
def parseU8 (s : List Char) : Option Nat :=
  let ds := stripPlus s
  if ds = [] then none
  else if ds.all isDigitB then
    if digitsVal ds ≤ 255 then some (digitsVal ds) else none
  else none

/-- The thirteen case-insensitive literal key tokens of
`KeybindingVisitor::visit_map`, in source order. -/
def literalTokens : List (List Char) :=
  ["enter".toList, "esc".toList, "up".toList, "down".toList, "left".toList,
   "right".toList, "home".toList, "end".toList, "pageup".toList,
   "pagedown".toList, "tab".toList, "backspace".toList, "delete".toList]

/-- The literal-token arm of `visit_map`: match the lowercased token
against the named keys, otherwise fail with the unknown-token error. -/
def lookupLiteral (l : List Char) : Except ConfigError KeyCode :=
  if l = "enter".toList then .ok .Enter
  else if l = "esc".toList then .ok .Esc
  else if l = "up".toList then .ok .Up
  else if l = "down".toList then .ok .Down
  else if l = "left".toList then .ok .Left
  else if l = "right".toList then .ok .Right
  else if l = "home".toList then .ok .Home
  else if l = "end".toList then .ok .End
  else if l = "pageup".toList then .ok .PageUp
  else if l = "pagedown".toList then .ok .PageDown
  else if l = "tab".toList then .ok .Tab
  else if l = "backspace".toList then .ok .Backspace
  else if l = "delete".toList then .ok .Delete
  else .error .UnknownKeyToken

/-- The `on`-field token parser of `KeybindingVisitor::visit_map`:
single-byte tokens are character keys; `F` followed by one or two bytes is
a function key whose suffix must parse as `u8` (else `InvalidKeySpec`);
everything else is matched case-insensitively against the literal table. -/
def parseOn (s : List Char) : Except ConfigError KeyCode :=
  match s with
  | [] => lookupLiteral (lowerStr [])
  | c :: rest =>
    if strLen (c :: rest) = 1 then .ok (.Char c)
    else if c = 'F' ∧ (strLen (c :: rest) = 2 ∨ strLen (c :: rest) = 3) then
      match parseU8 rest with
      | some n => .ok (.F n)
      | none => .error .InvalidKeySpec
    else lookupLiteral (lowerStr (c :: rest))

/-- serde-derive deserialization of `KeyModifier`: the exact variant names;
anything else is an unknown-variant error. -/
def parseModifier (s : List Char) : Except ConfigError KeyModifier :=
  if s = "None".toList then .ok .None
  else if s = "Ctrl".toList then .ok .Ctrl
  else if s = "Shift".toList then .ok .Shift
  else .error .UnknownModifier

/-- serde-derive deserialization of `GeneralAction` variant names;
anything else is the spec's `UnknownAction` error. -/
def parseGeneralAction (s : List Char) : Except ConfigError GeneralAction :=
  if s = "ShowHelp".toList then .ok .ShowHelp
  else if s = "Quit".toList then .ok .Quit
  else if s = "SoftQuit".toList then .ok .SoftQuit
  else if s = "SwitchToTorrents".toList then .ok .SwitchToTorrents
  else if s = "SwitchToSearch".toList then .ok .SwitchToSearch
  else if s = "Left".toList then .ok .Left
  else if s = "Right".toList then .ok .Right
  else if s = "Down".toList then .ok .Down
  else if s = "Up".toList then .ok .Up
  else if s = "Search".toList then .ok .Search
  else if s = "SwitchFocus".toList then .ok .SwitchFocus
  else if s = "Confirm".toList then .ok .Confirm
  else if s = "ScrollPageDown".toList then .ok .ScrollPageDown
  else if s = "ScrollPageUp".toList then .ok .ScrollPageUp
  else if s = "GoToBeginning".toList then .ok .GoToBeginning
  else if s = "GoToEnd".toList then .ok .GoToEnd
  else .error .UnknownAction

/-- One field occurrence inside a keybinding entry's map, carrying the raw
value token, as seen by `visit_map` through `MapAccess`. -/
inductive FieldEntry
  | onKey (s : List Char)
  | modifier (s : List Char)
  | action (s : List Char)
deriving DecidableEq

/-- The field tag of an occurrence. -/
def FieldEntry.field : FieldEntry → KeyField
  | .onKey _ => .onKey
  | .modifier _ => .modifier
  | .action _ => .action

/-- The epilogue of `visit_map` after the field loop: missing `on`, then
missing `action`, then the deferred `action` value error, then
`modifier.transpose().unwrap()` — which panics on a stored modifier
deserialization error — and `Keybinding::new` defaulting the modifier. -/
def finish {T : Type} (o : Option KeyCode) (m : Option (Except ConfigError KeyModifier))
    (a : Option (Except ConfigError T)) : PanicOr (Except ConfigError (Keybinding T)) :=
  match o with
  | none => .ret (.error (.MissingField .onKey))
  | some onv =>
    match a with
    | none => .ret (.error (.MissingField .action))
    | some (.error e) => .ret (.error e)
    | some (.ok act) =>
      match m with
      | none => .ret (.ok ⟨onv, .None, act⟩)
      | some (.ok mv) => .ret (.ok ⟨onv, mv, act⟩)
      | some (.error _) => .panic

/-- The field loop of `KeybindingVisitor::visit_map`: duplicate checks
before value reads; the `on` value is parsed eagerly (its error propagates
immediately), while `modifier` and `action` store their deserialization
results for the epilogue. -/
def visitMap {T : Type} (pA : List Char → Except ConfigError T) :
    List FieldEntry → Option KeyCode → Option (Except ConfigError KeyModifier) →
    Option (Except ConfigError T) → PanicOr (Except ConfigError (Keybinding T))
  | [], o, m, a => finish o m a
  | .onKey s :: rest, o, m, a =>
    if o.isSome then .ret (.error (.DuplicateField .onKey))
    else
      match parseOn s with
      | .error e => .ret (.error e)
      | .ok k => visitMap pA rest (some k) m a
  | .modifier s :: rest, o, m, a =>
    if m.isSome then .ret (.error (.DuplicateField .modifier))
    else visitMap pA rest o (some (parseModifier s)) a
  | .action s :: rest, o, m, a =>
    if a.isSome then .ret (.error (.DuplicateField .action))
    else visitMap pA rest o m (some (pA s))

/-- Source `Deserialize for Keybinding<GeneralAction>`: run the visitor over the
entry's fields starting from the empty state. -/
def deserializeKeybinding (es : List FieldEntry) :
    PanicOr (Except ConfigError (Keybinding GeneralAction)) :=
  visitMap parseGeneralAction es none none none

/-- Number of occurrences of a field inside an entry. -/
def countField (f : KeyField) (es : List FieldEntry) : Nat :=
  es.countP (fun e => e.field == f)

/-- Whether an `Except` value is a success. -/
def isOkE {ε α : Type} : Except ε α → Bool
  | .ok _ => true
  | .error _ => false

/-- Whether a deserialization outcome is a `DuplicateField` error. -/
def isDupErr {T : Type} : PanicOr (Except ConfigError (Keybinding T)) → Bool
  | .ret (.error (.DuplicateField _)) => true
  | _ => false

/-- Whether a deserialization outcome is a `MissingField` error. -/
def isMissErr {T : Type} : PanicOr (Except ConfigError (Keybinding T)) → Bool
  | .ret (.error (.MissingField _)) => true
  | _ => false

/-- Whether a deserialization outcome is a success whose binding carries
the default `None` modifier. -/
def isOkNoModifier {T : Type} : PanicOr (Except ConfigError (Keybinding T)) → Bool
  | .ret (.ok kb) => kb.modifier == KeyModifier.None
  | _ => false

/-- The `on` state the field loop ends with, given a start state. -/
def endOn : List FieldEntry → Option KeyCode → Option KeyCode
  | [], o => o
  | .onKey s :: rest, none => endOn rest (parseOn s).toOption
  | .onKey _ :: rest, some k => endOn rest (some k)
  | .modifier _ :: rest, o => endOn rest o
  | .action _ :: rest, o => endOn rest o

/-- The `modifier` state the field loop ends with. -/
def endM : List FieldEntry → Option (Except ConfigError KeyModifier) →
    Option (Except ConfigError KeyModifier)
  | [], m => m
  | .modifier s :: rest, none => endM rest (some (parseModifier s))
  | .modifier _ :: rest, some r => endM rest (some r)
  | .onKey _ :: rest, m => endM rest m
  | .action _ :: rest, m => endM rest m

/-- The `action` state the field loop ends with. -/
def endA {T : Type} (pA : List Char → Except ConfigError T) :
    List FieldEntry → Option (Except ConfigError T) → Option (Except ConfigError T)
  | [], a => a
  | .action s :: rest, none => endA pA rest (some (pA s))
  | .action _ :: rest, some r => endA pA rest (some r)
  | .onKey _ :: rest, a => endA pA rest a
  | .modifier _ :: rest, a => endA pA rest a

/-- A duplicate-field error is still pending: some field is already set in
the loop state and occurs again, or occurs twice in the remainder. -/
def dupPending (es : List FieldEntry) (bo bm ba : Bool) : Prop :=
  (bo = true ∧ 1 ≤ countField .onKey es) ∨
  (bm = true ∧ 1 ≤ countField .modifier es) ∨
  (ba = true ∧ 1 ≤ countField .action es) ∨
  (∃ f, 2 ≤ countField f es)

/-- Source `keymap.rs` `General<T>`. -/
structure General (T : Type) where
  keybindings : List (Keybinding T)
deriving DecidableEq

/-- Source `keymap.rs` `TorrentsTab<T>` (the keymap context, distinct from the
UI tab). -/
structure TorrentsTab (T : Type) where
  keybindings : List (Keybinding T)
deriving DecidableEq

/-- Source `keymap.rs` `KeymapConfig`. -/
structure KeymapConfig where
  general : General GeneralAction
  torrents_tab : TorrentsTab TorrentsAction
deriving DecidableEq

/-- The compiled lookup map from chords to global actions, modelling the
`HashMap<(KeyCode, KeyModifiers), Action>` extensionally. -/
abbrev CompiledActionMap := KeyCode × KeyModifiers → Option Action

/-- Source `HashMap::insert`: later insertions override earlier ones. -/
def hmInsert (m : CompiledActionMap) (k : KeyCode × KeyModifiers) (v : Action) :
    CompiledActionMap :=
  fun q => if q = k then some v else m q

/-- The hash key of a binding: `(keybinding.on, keybinding.modifier.into())`. -/
def bindKey {T : Type} (kb : Keybinding T) : KeyCode × KeyModifiers :=
  (kb.onKey, kb.modifier.toKeyModifiers)

/-- One context's insertion loop inside `KeymapConfig::to_map`. -/
def insertAll {T : Type} (f : T → Action) (l : List (Keybinding T))
    (m : CompiledActionMap) : CompiledActionMap :=
  l.foldl (fun m kb => hmInsert m (bindKey kb) (f kb.action)) m

/-- Source `KeymapConfig::to_map`: flatten `general` first, then `torrents_tab`,
into one map. -/
def KeymapConfig.to_map (c : KeymapConfig) : CompiledActionMap :=
  insertAll TorrentsAction.toAction c.torrents_tab.keybindings
    (insertAll GeneralAction.toAction c.general.keybindings (fun _ => none))

/-- The action of the last binding in a list whose chord hashes to the
given key, if any (later list entries take precedence). -/
def lastBind {T : Type} : List (Keybinding T) → KeyCode × KeyModifiers → Option T
  | [], _ => none
  | kb :: rest, k =>
    match lastBind rest k with
    | some a => some a
    | none => if bindKey kb = k then some kb.action else none

/-- Source `rm-main/src/action.rs` `Mode`. -/
inductive Mode
  | Input
  | Normal
deriving DecidableEq

/-- Modelled from the spec: `tui::Event` is not under `src/`; the variants
are those matched by `event_to_action`. -/
inductive Event
  | Quit
  | Error
  | Render
  | Key (k : KeyEvent)
deriving DecidableEq

/-- Source `keycode_to_action` in `rm-main/src/action.rs`: the fixed, built-in
key table. The source's disjoint match arms are grouped by constructor;
`Char` literals become an if-chain with the same semantics. -/
def keycode_to_action (key : KeyEvent) : Option Action :=
  match key.code with
  | .Tab => some .ChangeFocus
  | .Down => some .Down
  | .Up => some .Up
  | .Enter => some .Confirm
  | .Char c =>
    if c = 'j' then some .Down
    else if c = 'k' then some .Up
    else if c = 'q' then some .Quit
    else if c = '?' then some .ShowHelp
    else if c = 't' then some .ShowStats
    else if c = 'f' then some .ShowFiles
    else if c = '/' then some .Search
    else if c = 'a' then some .AddMagnet
    else if c = 'p' then some .Pause
    else if c = 'd' then some .DeleteWithoutFiles
    else if c = 'D' then some .DeleteWithFiles
    else if c = ' ' then some .Space
    else if '1' ≤ c ∧ c ≤ '9' then some (.ChangeTab (c.toNat - 48))
    else none
  | _ => none

/-- Source `event_to_action`: quit and render events map directly; key events are
wrapped in input mode and resolved through the fixed table in normal mode;
the `Error` arm is a `todo!()` panic. -/
def event_to_action (mode : Mode) (event : Event) : PanicOr (Option Action) :=
  match event with
  | .Quit => .ret (some .Quit)
  | .Error => .panic
  | .Render => .ret (some .Render)
  | .Key k =>
    match mode with
    | .Input => .ret (some (.Input k))
    | .Normal => .ret (keycode_to_action k)

namespace Ui

/-- Modelled from the spec: `StatisticsPopup` content
(`popups/stats.rs`) is not under `src/`; per the spec's popup-content
interface it is represented by its `handle(action) -> Option<Action>`
capability. -/
structure StatisticsPopup where
  handle : Action → Option Action

/-- Source `popups/mod.rs` `PopupManager`: a single-slot popup holder. -/
structure PopupManager where
  current_popup : Option StatisticsPopup

/-- Source `PopupManager::new`. -/
def PopupManager.new : PopupManager := ⟨none⟩

/-- Source `PopupManager::is_showing_popup`. -/
def PopupManager.is_showing_popup (pm : PopupManager) : Bool :=
  pm.current_popup.isSome

/-- Source `PopupManager::show_popup`. -/
def PopupManager.show_popup (pm : PopupManager) (p : StatisticsPopup) : PopupManager :=
  ⟨some p⟩

/-- Source `PopupManager::close_popup`. -/
def PopupManager.close_popup (pm : PopupManager) : PopupManager := ⟨none⟩

/-- Source `PopupManager::handle_actions`: forward to the active popup; a `Quit`
result closes it and requests a render; any other case returns no action. -/
def PopupManager.handle_actions (pm : PopupManager) (action : Action) :
    PopupManager × Option Action :=
  match pm.current_popup with
  | some popup =>
    if popup.handle action = some Action.Quit then (pm.close_popup, some Action.Render)
    else (pm, none)
  | none => (pm, none)

/-- Source `tabs/torrents/mod.rs` `TorrentsTab`, restricted to the state its
`handle_actions` path reads. `current_item` is modelled from the spec: it
is the `TableManager::current_item()` view (the `TableManager` itself is
not under `src/`); `stats` is modelled from the spec: the statistics
popup constructible from the last fetched stats, if any. -/
structure TorrentsTab where
  popup_manager : PopupManager
  current_item : Option RustmissionTorrent
  stats : Option StatisticsPopup

/-- Source `TorrentsTab::previous_torrent`: moves the cursor of the external
table and requests a render. -/
def TorrentsTab.previous_torrent (tab : TorrentsTab) : Option Action :=
  some .Render

/-- Source `TorrentsTab::next_torrent`: moves the cursor of the external table
and requests a render. -/
def TorrentsTab.next_torrent (tab : TorrentsTab) : Option Action :=
  some .Render

/-- Source `TorrentsTab::show_statistics_popup`: when stats have been fetched,
show the popup and request a render, else do nothing. -/
def TorrentsTab.show_statistics_popup (tab : TorrentsTab) : TorrentsTab × Option Action :=
  match tab.stats with
  | some popup => ({ tab with popup_manager := tab.popup_manager.show_popup popup }, some .Render)
  | none => (tab, none)

/-- Source `TorrentsTab::pause_current_torrent`: read the current entity's status
and send `Start` when stopped, `Stop` otherwise; no entity means no
command; no action is returned either way. The issued commands are made
explicit as a list. -/
def TorrentsTab.pause_current_torrent (tab : TorrentsTab) :
    List TorrentAction × Option Action :=
  match tab.current_item with
  | some torrent =>
    (match torrent.status with
     | .Stopped => [TorrentAction.Start [torrent.id]]
     | _ => [TorrentAction.Stop [torrent.id]], none)
  | none => ([], none)

/-- Source `TorrentsTab::handle_actions`: an active popup intercepts every
action; otherwise dispatch on the action, falling through to the task
manager, whose handler (`task_manager.rs`, not under `src/`) is passed in
as a parameter. Returns the new state, the issued daemon commands and the
returned action. -/
def TorrentsTab.handle_actions (task : Action → Option Action) (tab : TorrentsTab)
    (action : Action) : TorrentsTab × List TorrentAction × Option Action :=
  if tab.popup_manager.is_showing_popup then
    let r := tab.popup_manager.handle_actions action
    ({ tab with popup_manager := r.1 }, [], r.2)
  else
    match action with
    | .Up => (tab, [], tab.previous_torrent)
    | .Down => (tab, [], tab.next_torrent)
    | .ShowStats =>
      let r := tab.show_statistics_popup
      (r.1, [], r.2)
    | .Pause =>
      let r := tab.pause_current_torrent
      (tab, r.1, r.2)
    | other => (tab, [], task other)

end Ui

/-- A configuration in which the user has overridden `j` to `Quit` in the
`general` context. -/
def cfgJ : KeymapConfig :=
  ⟨⟨[⟨KeyCode.Char 'j', KeyModifier.None, GeneralAction.Quit⟩]⟩, ⟨[]⟩⟩

/-- A configuration binding `q` in both contexts: `Quit` in `general`,
`Pause` in `torrents_tab`. -/
def cfgQ : KeymapConfig :=
  ⟨⟨[⟨KeyCode.Char 'q', KeyModifier.None, GeneralAction.Quit⟩]⟩,
   ⟨[⟨KeyCode.Char 'q', KeyModifier.None, TorrentsAction.Pause⟩]⟩⟩

/-- An entry whose `on` field occurs twice, the first occurrence carrying
an invalid key token. -/
def esDupBadOn : List FieldEntry :=
  [FieldEntry.onKey "zzz".toList, FieldEntry.onKey "j".toList,
   FieldEntry.action "Quit".toList]

/-- An entry with valid `on` and `action` but an invalid `modifier`
value. -/
def esBadModifier : List FieldEntry :=
  [FieldEntry.onKey "q".toList, FieldEntry.modifier "alt".toList,
   FieldEntry.action "Quit".toList]

/-- An entry with one `on` and one `action` field and no `modifier`. -/
def esNoModifier : List FieldEntry :=
  [FieldEntry.onKey "q".toList, FieldEntry.action "Quit".toList]

/-- An entry whose well-formed `on` field occurs twice. -/
def esDupGoodOn : List FieldEntry :=
  [FieldEntry.onKey "q".toList, FieldEntry.onKey "j".toList,
   FieldEntry.action "Quit".toList]

/-- A popup whose handler always requests its own close. -/
def pQuit : Ui.StatisticsPopup := ⟨fun _ => some Action.Quit⟩

/-- A popup whose handler returns a non-close action. -/
def pRender : Ui.StatisticsPopup := ⟨fun _ => some Action.Render⟩

/-- A torrents tab showing the always-close popup. -/
def tabQuit : Ui.TorrentsTab := ⟨⟨some pQuit⟩, none, none⟩

/-- A torrents tab showing the render-returning popup. -/
def tabRender : Ui.TorrentsTab := ⟨⟨some pRender⟩, none, none⟩

/-- A task-manager handler that returns no action, used to instantiate
theorems at concrete inputs. -/
def taskNone : Action → Option Action := fun _ => none

/-- A concrete stopped torrent. -/
def torStopped : RustmissionTorrent := ⟨TorrentId.Id 5, TorrentStatus.Stopped⟩

/-- A concrete downloading torrent. -/
def torDownloading : RustmissionTorrent := ⟨TorrentId.Id 7, TorrentStatus.Downloading⟩


lemma utf8Len_pos (c : Char) : 1 ≤ utf8Len c := by
  unfold utf8Len
  split_ifs <;> omega

lemma length_le_strLen (s : List Char) : s.length ≤ strLen s := by
  induction s with
  | nil => simp [strLen]
  | cons c rest ih =>
    have := utf8Len_pos c
    simp only [strLen, List.length_cons]
    omega

lemma lowerStr_length (s : List Char) : (lowerStr s).length = s.length := by
  simp [lowerStr]

lemma lowerStr_head (s : List Char) (c : Char) (h : s.head? = some c) :
    (lowerStr s).head? = some (charLower c) := by
  cases s with
  | nil => simp at h
  | cons a rest =>
    simp only [List.head?_cons, Option.some.injEq] at h
    simp [lowerStr, h]

lemma parseOn_eq_lookup (s : List Char) (h2 : 2 ≤ s.length)
    (hF : ¬(s.head? = some 'F' ∧ (strLen s = 2 ∨ strLen s = 3))) :
    parseOn s = lookupLiteral (lowerStr s) := by
  match s with
  | [] => simp at h2
  | c :: rest =>
    have hge : (c :: rest).length ≤ strLen (c :: rest) := length_le_strLen _
    have hlen : ¬ strLen (c :: rest) = 1 := by
      simp only [List.length_cons] at hge h2
      omega
    have hcond : ¬(c = 'F' ∧ (strLen (c :: rest) = 2 ∨ strLen (c :: rest) = 3)) := by
      rintro ⟨hc, hd⟩
      exact hF ⟨by simp [hc], hd⟩
    simp only [parseOn]
    rw [if_neg hlen, if_neg hcond]

lemma lookupLiteral_not_mem (l : List Char) (h : l ∉ literalTokens) :
    lookupLiteral l = Except.error ConfigError.UnknownKeyToken := by
  simp only [literalTokens, List.mem_cons, List.not_mem_nil, or_false, not_or] at h
  obtain ⟨h1, h2, h3, h4, h5, h6, h7, h8, h9, h10, h11, h12, h13⟩ := h
  simp only [lookupLiteral, if_neg h1, if_neg h2, if_neg h3, if_neg h4, if_neg h5,
    if_neg h6, if_neg h7, if_neg h8, if_neg h9, if_neg h10, if_neg h11, if_neg h12,
    if_neg h13]

lemma parseOn_of_lower (s l : List Char) (h : lowerStr s = l) (h2 : 2 ≤ l.length)
    (hf : l.head? ≠ some 'f') : parseOn s = lookupLiteral l := by
  have hsl : 2 ≤ s.length := by
    rw [← lowerStr_length s, h]
    exact h2
  have hF : ¬(s.head? = some 'F' ∧ (strLen s = 2 ∨ strLen s = 3)) := by
    rintro ⟨hh, -⟩
    apply hf
    rw [← h, lowerStr_head s 'F' hh]
    decide
  rw [parseOn_eq_lookup s hsl hF, h]

lemma utf8Len_of_digit (c : Char) (h : isDigitB c = true) : utf8Len c = 1 := by
  simp only [isDigitB, decide_eq_true_eq] at h
  unfold utf8Len
  rw [if_pos (by omega)]

lemma strLen_of_digits (d : List Char) (h : ∀ c ∈ d, isDigitB c = true) :
    strLen d = d.length := by
  induction d with
  | nil => rfl
  | cons c rest ih =>
    simp only [strLen, List.length_cons, utf8Len_of_digit c (h c (by simp)),
      ih (fun x hx => h x (by simp [hx]))]
    omega

lemma stripPlus_of_digits (d : List Char) (h : ∀ c ∈ d, isDigitB c = true) :
    stripPlus d = d := by
  cases d with
  | nil => rfl
  | cons c rest =>
    have hc := h c (by simp)
    simp only [isDigitB, decide_eq_true_eq] at hc
    simp only [stripPlus]
    rw [if_neg]
    intro hceq
    subst hceq
    exact absurd hc (by decide)

lemma digitsVal_le_99 (d : List Char) (h : ∀ c ∈ d, isDigitB c = true)
    (hl : d.length ≤ 2) : digitsVal d ≤ 99 := by
  match d with
  | [] => simp [digitsVal]
  | [a] =>
    have ha := h a (by simp)
    simp only [isDigitB, decide_eq_true_eq] at ha
    simp only [digitsVal, List.foldl_cons, List.foldl_nil]
    omega
  | [a, b] =>
    have ha := h a (by simp)
    have hb := h b (by simp)
    simp only [isDigitB, decide_eq_true_eq] at ha hb
    simp only [digitsVal, List.foldl_cons, List.foldl_nil]
    omega
  | a :: b :: c :: rest => simp at hl

/-- C4: every `F`-token whose one- or two-character suffix is all digits
parses to the function key with that decimal index (covering `F1`..`F99`),
and every token of the `F` shape whose suffix fails the `u8` parse is
rejected with `InvalidKeySpec`. -/
theorem c4_function_keys (d : List Char) :
    (d ≠ [] → d.length ≤ 2 → (∀ c ∈ d, isDigitB c = true) →
      parseOn ('F' :: d) = Except.ok (KeyCode.F (digitsVal d))) ∧
    ((strLen ('F' :: d) = 2 ∨ strLen ('F' :: d) = 3) → parseU8 d = none →
      parseOn ('F' :: d) = Except.error ConfigError.InvalidKeySpec) := by
  constructor
  · intro hne hlen hdig
    have hpos : 1 ≤ d.length := by
      cases d with
      | nil => exact absurd rfl hne
      | cons a t => simp
    have hsd : strLen d = d.length := strLen_of_digits d hdig
    have hF : utf8Len 'F' = 1 := by decide
    have hs : strLen ('F' :: d) = 1 + d.length := by
      simp [strLen, hF, hsd]
    have h1 : ¬ strLen ('F' :: d) = 1 := by omega
    have hu : parseU8 d = some (digitsVal d) := by
      unfold parseU8
      rw [stripPlus_of_digits d hdig]
      rw [if_neg hne, if_pos (by simpa [List.all_eq_true] using hdig),
        if_pos (by have := digitsVal_le_99 d hdig hlen; omega)]
    simp only [parseOn]
    rw [if_neg h1,
      if_pos (show True ∧ (strLen ('F' :: d) = 2 ∨ strLen ('F' :: d) = 3) from
        ⟨trivial, by omega⟩), hu]
  · intro hsl hn
    have h1 : ¬ strLen ('F' :: d) = 1 := by
      rcases hsl with h | h <;> omega
    simp only [parseOn]
    rw [if_neg h1,
      if_pos (show True ∧ (strLen ('F' :: d) = 2 ∨ strLen ('F' :: d) = 3) from
        ⟨trivial, hsl⟩), hn]

/-- Witness for C4 at the tokens `F7` and `Fx`. -/
theorem c4_witness :
    parseOn ('F' :: ['7']) = Except.ok (KeyCode.F (digitsVal ['7'])) ∧
    parseOn ('F' :: ['x']) = Except.error ConfigError.InvalidKeySpec :=
  ⟨(c4_function_keys ['7']).1 (by decide) (by decide) (by decide),
   (c4_function_keys ['x']).2 (by decide) (by decide)⟩

/-- C6: every multi-character token whose lowercase (in the program's
Unicode sense, see `charLower`) equals one of the thirteen literal tokens
parses to the corresponding named key, and any other multi-character
token outside the function-key shape is rejected with `UnknownKeyToken`. -/
theorem c6_literal_tokens (s : List Char) :
    (lowerStr s = "enter".toList → parseOn s = Except.ok KeyCode.Enter) ∧
    (lowerStr s = "esc".toList → parseOn s = Except.ok KeyCode.Esc) ∧
    (lowerStr s = "up".toList → parseOn s = Except.ok KeyCode.Up) ∧
    (lowerStr s = "down".toList → parseOn s = Except.ok KeyCode.Down) ∧
    (lowerStr s = "left".toList → parseOn s = Except.ok KeyCode.Left) ∧
    (lowerStr s = "right".toList → parseOn s = Except.ok KeyCode.Right) ∧
    (lowerStr s = "home".toList → parseOn s = Except.ok KeyCode.Home) ∧
    (lowerStr s = "end".toList → parseOn s = Except.ok KeyCode.End) ∧
    (lowerStr s = "pageup".toList → parseOn s = Except.ok KeyCode.PageUp) ∧
    (lowerStr s = "pagedown".toList → parseOn s = Except.ok KeyCode.PageDown) ∧
    (lowerStr s = "tab".toList → parseOn s = Except.ok KeyCode.Tab) ∧
    (lowerStr s = "backspace".toList → parseOn s = Except.ok KeyCode.Backspace) ∧
    (lowerStr s = "delete".toList → parseOn s = Except.ok KeyCode.Delete) ∧
    (2 ≤ s.length → ¬(s.head? = some 'F' ∧ (strLen s = 2 ∨ strLen s = 3)) →
      lowerStr s ∉ literalTokens → parseOn s = Except.error ConfigError.UnknownKeyToken) := by
  refine ⟨?_, ?_, ?_, ?_, ?_, ?_, ?_, ?_, ?_, ?_, ?_, ?_, ?_, ?_⟩
  · intro h
    rw [parseOn_of_lower s _ h (by decide) (by decide)]
    decide
  · intro h
    rw [parseOn_of_lower s _ h (by decide) (by decide)]
    decide
  · intro h
    rw [parseOn_of_lower s _ h (by decide) (by decide)]
    decide
  · intro h
    rw [parseOn_of_lower s _ h (by decide) (by decide)]
    decide
  · intro h
    rw [parseOn_of_lower s _ h (by decide) (by decide)]
    decide
  · intro h
    rw [parseOn_of_lower s _ h (by decide) (by decide)]
    decide
  · intro h
    rw [parseOn_of_lower s _ h (by decide) (by decide)]
    decide
  · intro h
    rw [parseOn_of_lower s _ h (by decide) (by decide)]
    decide
  · intro h
    rw [parseOn_of_lower s _ h (by decide) (by decide)]
    decide
  · intro h
    rw [parseOn_of_lower s _ h (by decide) (by decide)]
    decide
  · intro h
    rw [parseOn_of_lower s _ h (by decide) (by decide)]
    decide
  · intro h
    rw [parseOn_of_lower s _ h (by decide) (by decide)]
    decide
  · intro h
    rw [parseOn_of_lower s _ h (by decide) (by decide)]
    decide
  · intro h2 hF hm
    rw [parseOn_eq_lookup s h2 hF]
    exact lookupLiteral_not_mem _ hm

/-- Witness for C6 at the tokens `ENTER`, `BAC` + U+212A KELVIN SIGN +
`SPACE` (whose Unicode lowercase is `backspace`) and `bogus`. -/
theorem c6_witness :
    parseOn "ENTER".toList = Except.ok KeyCode.Enter ∧
    parseOn "BAC\u212ASPACE".toList = Except.ok KeyCode.Backspace ∧
    parseOn "bogus".toList = Except.error ConfigError.UnknownKeyToken :=
  ⟨(c6_literal_tokens "ENTER".toList).1 (by decide),
   (c6_literal_tokens "BAC\u212ASPACE".toList).2.2.2.2.2.2.2.2.2.2.2.1 (by decide),
   (c6_literal_tokens "bogus".toList).2.2.2.2.2.2.2.2.2.2.2.2.2 (by decide) (by decide)
     (by decide)⟩

/-- C7: a valid (single-byte) single-character token parses to that
character key, and rendering the chord without a modifier returns exactly
that character. -/
theorem c7_char_roundtrip (c : Char) (act : GeneralAction) (h : utf8Len c = 1) :
    parseOn [c] = Except.ok (KeyCode.Char c) ∧
    Keybinding.keycode_string ⟨KeyCode.Char c, KeyModifier.None, act⟩ = PanicOr.ret [c] := by
  constructor
  · simp only [parseOn, strLen, h, if_true]
  · rfl

/-- Witness for C7 at the token `j`. -/
theorem c7_witness :
    parseOn ['j'] = Except.ok (KeyCode.Char 'j') ∧
    Keybinding.keycode_string ⟨KeyCode.Char 'j', KeyModifier.None, GeneralAction.Down⟩ =
      PanicOr.ret ['j'] :=
  c7_char_roundtrip 'j' GeneralAction.Down (by decide)

/-- C10: the literal token `delete` parses to the Delete key, yet
`keycode_string` on the resulting chord hits a `todo!()` arm and panics,
so the legend display is not total over parseable chords. -/
theorem c10_delete_display_panics :
    parseOn "delete".toList = Except.ok KeyCode.Delete ∧
    Keybinding.keycode_string
      (⟨KeyCode.Delete, KeyModifier.None, GeneralAction.Quit⟩ : Keybinding GeneralAction) =
      PanicOr.panic := by
  constructor
  · decide
  · rfl

lemma insertAll_apply {T : Type} (f : T → Action) (l : List (Keybinding T))
    (m : CompiledActionMap) (k : KeyCode × KeyModifiers) :
    insertAll f l m k =
      match lastBind l k with
      | some a => some (f a)
      | none => m k := by
  induction l generalizing m with
  | nil => rfl
  | cons kb rest ih =>
    have hstep : insertAll f (kb :: rest) m =
        insertAll f rest (hmInsert m (bindKey kb) (f kb.action)) := rfl
    rw [hstep, ih]
    simp only [lastBind]
    cases h : lastBind rest k with
    | some a => rfl
    | none =>
      by_cases hk : bindKey kb = k
      · rw [if_pos hk]
        simp only [hmInsert, if_pos hk.symm]
      · rw [if_neg hk]
        simp only [hmInsert]
        rw [if_neg (fun hh => hk hh.symm)]

/-- C3: `to_map` is total, and on any chord bound in `torrents_tab` the
compiled map returns that context's (last) action — later-merged contexts
override `general` — while a chord bound only in `general` returns the
`general` action. -/
theorem c3_last_write_wins (cfg : KeymapConfig) (k : KeyCode × KeyModifiers) :
    (∀ a : TorrentsAction, lastBind cfg.torrents_tab.keybindings k = some a →
      cfg.to_map k = some a.toAction) ∧
    (lastBind cfg.torrents_tab.keybindings k = none →
      ∀ g : GeneralAction, lastBind cfg.general.keybindings k = some g →
        cfg.to_map k = some g.toAction) := by
  unfold KeymapConfig.to_map
  constructor
  · intro a ha
    rw [insertAll_apply, ha]
  · intro hn g hg
    rw [insertAll_apply, hn, insertAll_apply, hg]

/-- Witness for C3: `q` bound in both contexts resolves to the
`torrents_tab` action; `j` bound only in `general` resolves to the
`general` action. -/
theorem c3_witness :
    cfgQ.to_map (KeyCode.Char 'q', KeyModifiers.NONE) = some Action.Pause ∧
    cfgJ.to_map (KeyCode.Char 'j', KeyModifiers.NONE) = some Action.Quit :=
  ⟨(c3_last_write_wins cfgQ _).1 TorrentsAction.Pause (by decide),
   (c3_last_write_wins cfgJ _).2 (by decide) GeneralAction.Quit (by decide)⟩

/-- Counterexample to C1: with `j` overridden to `Quit` in the user
configuration, the compiled map assigns `Quit` to `j`, yet normal-mode
resolution still yields `Down` — the resolver never consults the
configured map. -/
theorem c1_counterexample :
    cfgJ.to_map (KeyCode.Char 'j', KeyModifiers.NONE) = some Action.Quit ∧
    event_to_action Mode.Normal (Event.Key ⟨KeyCode.Char 'j', KeyModifiers.NONE⟩) =
      PanicOr.ret (some Action.Down) ∧
    Action.Down ≠ Action.Quit := by
  refine ⟨by decide, by decide, by decide⟩

/-- C1 (amended): normal-mode resolution uses the fixed built-in table
keyed on the key code alone: `j` always yields `Down`, independent of any
configuration, and a character key outside the built-in table yields no
action (not an error). -/
theorem c1_amended_resolution (m : KeyModifiers) (c : Char)
    (h : c ∉ ['j', 'k', 'q', '?', 't', 'f', '/', 'a', 'p', 'd', 'D', ' '])
    (h9 : ¬('1' ≤ c ∧ c ≤ '9')) :
    event_to_action Mode.Normal (Event.Key ⟨KeyCode.Char 'j', m⟩) =
      PanicOr.ret (some Action.Down) ∧
    event_to_action Mode.Normal (Event.Key ⟨KeyCode.Char c, m⟩) = PanicOr.ret none := by
  constructor
  · rfl
  · simp only [List.mem_cons, List.not_mem_nil, or_false, not_or] at h
    obtain ⟨h1, h2, h3, h4, h5, h6, h7, h8, h10, h11, h12, h13⟩ := h
    simp only [event_to_action, keycode_to_action]
    rw [if_neg h1, if_neg h2, if_neg h3, if_neg h4, if_neg h5, if_neg h6, if_neg h7,
      if_neg h8, if_neg h10, if_neg h11, if_neg h12, if_neg h13, if_neg h9]

/-- Witness for C1 (amended) at the unbound key `x`. -/
theorem c1_witness :
    event_to_action Mode.Normal (Event.Key ⟨KeyCode.Char 'j', KeyModifiers.NONE⟩) =
      PanicOr.ret (some Action.Down) ∧
    event_to_action Mode.Normal (Event.Key ⟨KeyCode.Char 'x', KeyModifiers.NONE⟩) =
      PanicOr.ret none :=
  c1_amended_resolution KeyModifiers.NONE 'x' (by decide) (by decide)

/-- Counterexample to C2: a popup whose handler returns `Render` — the
manager returns no action at all instead of what the popup returned. -/
theorem c2_counterexample :
    pRender.handle Action.Up = some Action.Render ∧
    (Ui.TorrentsTab.handle_actions taskNone tabRender Action.Up).2.2 = none ∧
    some Action.Render ≠ (none : Option Action) := by
  refine ⟨rfl, rfl, by simp⟩

/-- C2 (amended): with a popup active, `handle_actions` forwards the
action to the popup and never lets the view handle it (no commands, the
selection view untouched); a `Quit` result pops the popup and returns
`Render`; any other popup result returns no action. -/
theorem c2_popup_interception (task : Action → Option Action) (tab : Ui.TorrentsTab)
    (a : Action) (p : Ui.StatisticsPopup)
    (hp : tab.popup_manager.current_popup = some p) :
    (Ui.TorrentsTab.handle_actions task tab a).2.1 = [] ∧
    (Ui.TorrentsTab.handle_actions task tab a).1.current_item = tab.current_item ∧
    (p.handle a = some Action.Quit →
      (Ui.TorrentsTab.handle_actions task tab a).1.popup_manager.is_showing_popup = false ∧
      (Ui.TorrentsTab.handle_actions task tab a).2.2 = some Action.Render) ∧
    (p.handle a ≠ some Action.Quit →
      (Ui.TorrentsTab.handle_actions task tab a).2.2 = none ∧
      (Ui.TorrentsTab.handle_actions task tab a).1.popup_manager = tab.popup_manager) := by
  have hs : tab.popup_manager.is_showing_popup = true := by
    simp [Ui.PopupManager.is_showing_popup, hp]
  by_cases hq : p.handle a = some Action.Quit
  · simp [Ui.TorrentsTab.handle_actions, hs, Ui.PopupManager.handle_actions, hp, hq,
      Ui.PopupManager.close_popup, Ui.PopupManager.is_showing_popup]
  · simp [Ui.TorrentsTab.handle_actions, hs, Ui.PopupManager.handle_actions, hp, hq]

/-- Witness for C2 (amended): a popup requesting its own close is popped
and a render is requested. -/
theorem c2_witness :
    (Ui.TorrentsTab.handle_actions taskNone tabQuit Action.Up).1.popup_manager.is_showing_popup
        = false ∧
    (Ui.TorrentsTab.handle_actions taskNone tabQuit Action.Up).2.2 = some Action.Render :=
  (c2_popup_interception taskNone tabQuit Action.Up pQuit rfl).2.2.1 rfl

/-- C8: with no popup active, handling `Pause` inspects the current
entity's status: stopped entities get a `Start` command for exactly their
id, any other status gets a `Stop` command, and with no current entity no
command is sent; no action is returned in any case. -/
theorem c8_pause_toggle (task : Action → Option Action) (tab : Ui.TorrentsTab)
    (hpop : tab.popup_manager.current_popup = none) :
    (∀ t : RustmissionTorrent, tab.current_item = some t →
      t.status = TorrentStatus.Stopped →
      Ui.TorrentsTab.handle_actions task tab Action.Pause =
        (tab, [TorrentAction.Start [t.id]], none)) ∧
    (∀ t : RustmissionTorrent, tab.current_item = some t →
      t.status ≠ TorrentStatus.Stopped →
      Ui.TorrentsTab.handle_actions task tab Action.Pause =
        (tab, [TorrentAction.Stop [t.id]], none)) ∧
    (tab.current_item = none →
      Ui.TorrentsTab.handle_actions task tab Action.Pause = (tab, [], none)) := by
  have hs : tab.popup_manager.is_showing_popup = false := by
    simp [Ui.PopupManager.is_showing_popup, hpop]
  refine ⟨?_, ?_, ?_⟩
  · intro t ht hst
    simp [Ui.TorrentsTab.handle_actions, hs, Ui.TorrentsTab.pause_current_torrent, ht, hst]
  · intro t ht hst
    cases hstv : t.status <;>
      simp_all [Ui.TorrentsTab.handle_actions, hs, Ui.TorrentsTab.pause_current_torrent, ht]
  · intro ht
    simp [Ui.TorrentsTab.handle_actions, hs, Ui.TorrentsTab.pause_current_torrent, ht]

/-- Witness for C8: a stopped torrent gets a `Start` command, a
downloading torrent gets a `Stop` command. -/
theorem c8_witness :
    Ui.TorrentsTab.handle_actions taskNone ⟨⟨none⟩, some torStopped, none⟩ Action.Pause =
      (⟨⟨none⟩, some torStopped, none⟩, [TorrentAction.Start [TorrentId.Id 5]], none) ∧
    Ui.TorrentsTab.handle_actions taskNone ⟨⟨none⟩, some torDownloading, none⟩ Action.Pause =
      (⟨⟨none⟩, some torDownloading, none⟩, [TorrentAction.Stop [TorrentId.Id 7]], none) :=
  ⟨(c8_pause_toggle taskNone _ rfl).1 torStopped rfl rfl,
   (c8_pause_toggle taskNone _ rfl).2.1 torDownloading rfl (by decide)⟩

/-- C9: an entry with well-formed `on` and `action` but an invalid
`modifier` value makes the deserializer panic (the stored modifier result
is `unwrap`ped) instead of returning a configuration error. -/
theorem c9_modifier_unwrap_panics :
    deserializeKeybinding esBadModifier = PanicOr.panic := by
  decide

lemma countField_cons (f : KeyField) (e : FieldEntry) (es : List FieldEntry) :
    countField f (e :: es) = countField f es + if e.field = f then 1 else 0 := by
  simp only [countField, List.countP_cons]
  by_cases h : e.field = f
  · simp [h]
  · simp [h]

lemma parse_ok_exists {T : Type} (r : Except ConfigError T) (h : isOkE r = true) :
    ∃ v, r = Except.ok v := by
  cases r with
  | ok v => exact ⟨v, rfl⟩
  | error e => simp [isOkE] at h

lemma visitMap_dup {T : Type} (pA : List Char → Except ConfigError T) :
    ∀ (es : List FieldEntry) (o : Option KeyCode)
      (m : Option (Except ConfigError KeyModifier)) (a : Option (Except ConfigError T)),
      (∀ s, FieldEntry.onKey s ∈ es → isOkE (parseOn s) = true) →
      dupPending es o.isSome m.isSome a.isSome →
      isDupErr (visitMap pA es o m a) = true := by
  intro es
  induction es with
  | nil =>
    intro o m a _ hd
    rcases hd with ⟨-, h⟩ | ⟨-, h⟩ | ⟨-, h⟩ | ⟨f, h⟩ <;>
      simp [countField] at h
  | cons e rest ih =>
    intro o m a hwf hd
    cases e with
    | onKey s =>
      by_cases ho : o.isSome
      · simp [visitMap, ho, isDupErr]
      · obtain ⟨k, hk⟩ := parse_ok_exists (parseOn s) (hwf s (by simp))
        have ho' : o = none := by cases o <;> simp_all
        subst ho'
        simp only [visitMap, Option.isSome_none, Bool.false_eq_true, if_false, hk]
        apply ih (some k) m a (fun t ht => hwf t (List.mem_cons_of_mem _ ht))
        rcases hd with ⟨h1, -⟩ | ⟨h1, h2⟩ | ⟨h1, h2⟩ | ⟨f, hf⟩
        · exact absurd h1 (by simp)
        · right; left
          refine ⟨h1, ?_⟩
          rw [countField_cons] at h2
          simpa [FieldEntry.field] using h2
        · right; right; left
          refine ⟨h1, ?_⟩
          rw [countField_cons] at h2
          simpa [FieldEntry.field] using h2
        · cases f with
          | onKey =>
            left
            refine ⟨rfl, ?_⟩
            rw [countField_cons] at hf
            simp [FieldEntry.field] at hf
            omega
          | modifier =>
            right; right; right
            refine ⟨KeyField.modifier, ?_⟩
            rw [countField_cons] at hf
            simpa [FieldEntry.field] using hf
          | action =>
            right; right; right
            refine ⟨KeyField.action, ?_⟩
            rw [countField_cons] at hf
            simpa [FieldEntry.field] using hf
    | modifier s =>
      by_cases hm : m.isSome
      · simp [visitMap, hm, isDupErr]
      · have hm' : m = none := by cases m <;> simp_all
        subst hm'
        simp only [visitMap, Option.isSome_none, Bool.false_eq_true, if_false]
        apply ih o (some (parseModifier s)) a (fun t ht => hwf t (List.mem_cons_of_mem _ ht))
        rcases hd with ⟨h1, h2⟩ | ⟨h1, -⟩ | ⟨h1, h2⟩ | ⟨f, hf⟩
        · left
          refine ⟨h1, ?_⟩
          rw [countField_cons] at h2
          simpa [FieldEntry.field] using h2
        · exact absurd h1 (by simp)
        · right; right; left
          refine ⟨h1, ?_⟩
          rw [countField_cons] at h2
          simpa [FieldEntry.field] using h2
        · cases f with
          | modifier =>
            right; left
            refine ⟨rfl, ?_⟩
            rw [countField_cons] at hf
            simp [FieldEntry.field] at hf
            omega
          | onKey =>
            right; right; right
            refine ⟨KeyField.onKey, ?_⟩
            rw [countField_cons] at hf
            simpa [FieldEntry.field] using hf
          | action =>
            right; right; right
            refine ⟨KeyField.action, ?_⟩
            rw [countField_cons] at hf
            simpa [FieldEntry.field] using hf
    | action s =>
      by_cases ha : a.isSome
      · simp [visitMap, ha, isDupErr]
      · have ha' : a = none := by cases a <;> simp_all
        subst ha'
        simp only [visitMap, Option.isSome_none, Bool.false_eq_true, if_false]
        apply ih o m (some (pA s)) (fun t ht => hwf t (List.mem_cons_of_mem _ ht))
        rcases hd with ⟨h1, h2⟩ | ⟨h1, h2⟩ | ⟨h1, -⟩ | ⟨f, hf⟩
        · left
          refine ⟨h1, ?_⟩
          rw [countField_cons] at h2
          simpa [FieldEntry.field] using h2
        · right; left
          refine ⟨h1, ?_⟩
          rw [countField_cons] at h2
          simpa [FieldEntry.field] using h2
        · exact absurd h1 (by simp)
        · cases f with
          | action =>
            right; right; left
            refine ⟨rfl, ?_⟩
            rw [countField_cons] at hf
            simp [FieldEntry.field] at hf
            omega
          | onKey =>
            right; right; right
            refine ⟨KeyField.onKey, ?_⟩
            rw [countField_cons] at hf
            simpa [FieldEntry.field] using hf
          | modifier =>
            right; right; right
            refine ⟨KeyField.modifier, ?_⟩
            rw [countField_cons] at hf
            simpa [FieldEntry.field] using hf

lemma endOn_some (es : List FieldEntry) (k : KeyCode) : endOn es (some k) = some k := by
  induction es with
  | nil => rfl
  | cons e rest ih => cases e <;> simpa [endOn] using ih

lemma endM_some (es : List FieldEntry) (r : Except ConfigError KeyModifier) :
    endM es (some r) = some r := by
  induction es with
  | nil => rfl
  | cons e rest ih => cases e <;> simpa [endM] using ih

lemma endA_some {T : Type} (pA : List Char → Except ConfigError T) (es : List FieldEntry)
    (r : Except ConfigError T) : endA pA es (some r) = some r := by
  induction es with
  | nil => rfl
  | cons e rest ih => cases e <;> simpa [endA] using ih

lemma endOn_count_zero (es : List FieldEntry) (h : countField .onKey es = 0) :
    endOn es none = none := by
  induction es with
  | nil => rfl
  | cons e rest ih =>
    rw [countField_cons] at h
    cases e with
    | onKey s => simp [FieldEntry.field] at h
    | modifier s =>
      simp [FieldEntry.field] at h
      simpa [endOn] using ih h
    | action s =>
      simp [FieldEntry.field] at h
      simpa [endOn] using ih h

lemma endM_count_zero (es : List FieldEntry) (h : countField .modifier es = 0) :
    endM es none = none := by
  induction es with
  | nil => rfl
  | cons e rest ih =>
    rw [countField_cons] at h
    cases e with
    | modifier s => simp [FieldEntry.field] at h
    | onKey s =>
      simp [FieldEntry.field] at h
      simpa [endM] using ih h
    | action s =>
      simp [FieldEntry.field] at h
      simpa [endM] using ih h

lemma endA_count_zero {T : Type} (pA : List Char → Except ConfigError T)
    (es : List FieldEntry) (h : countField .action es = 0) : endA pA es none = none := by
  induction es with
  | nil => rfl
  | cons e rest ih =>
    rw [countField_cons] at h
    cases e with
    | action s => simp [FieldEntry.field] at h
    | onKey s =>
      simp [FieldEntry.field] at h
      simpa [endA] using ih h
    | modifier s =>
      simp [FieldEntry.field] at h
      simpa [endA] using ih h

lemma endOn_of_pos (es : List FieldEntry) (h : 1 ≤ countField .onKey es)
    (hwf : ∀ s, FieldEntry.onKey s ∈ es → isOkE (parseOn s) = true) :
    ∃ k, endOn es none = some k := by
  induction es with
  | nil => simp [countField] at h
  | cons e rest ih =>
    cases e with
    | onKey s =>
      obtain ⟨k, hk⟩ := parse_ok_exists (parseOn s) (hwf s (by simp))
      refine ⟨k, ?_⟩
      simp [endOn, hk, Except.toOption, endOn_some]
    | modifier s =>
      rw [countField_cons] at h
      simp [FieldEntry.field] at h
      obtain ⟨k, hk⟩ := ih h (fun t ht => hwf t (List.mem_cons_of_mem _ ht))
      exact ⟨k, by simpa [endOn] using hk⟩
    | action s =>
      rw [countField_cons] at h
      simp [FieldEntry.field] at h
      obtain ⟨k, hk⟩ := ih h (fun t ht => hwf t (List.mem_cons_of_mem _ ht))
      exact ⟨k, by simpa [endOn] using hk⟩

lemma endA_of_pos {T : Type} (pA : List Char → Except ConfigError T) (es : List FieldEntry)
    (h : 1 ≤ countField .action es)
    (hok : ∀ s, FieldEntry.action s ∈ es → isOkE (pA s) = true) :
    ∃ act, endA pA es none = some (Except.ok act) := by
  induction es with
  | nil => simp [countField] at h
  | cons e rest ih =>
    cases e with
    | action s =>
      obtain ⟨act, hact⟩ := parse_ok_exists (pA s) (hok s (by simp))
      refine ⟨act, ?_⟩
      simp [endA, hact, endA_some]
    | onKey s =>
      rw [countField_cons] at h
      simp [FieldEntry.field] at h
      obtain ⟨act, hact⟩ := ih h (fun t ht => hok t (List.mem_cons_of_mem _ ht))
      exact ⟨act, by simpa [endA] using hact⟩
    | modifier s =>
      rw [countField_cons] at h
      simp [FieldEntry.field] at h
      obtain ⟨act, hact⟩ := ih h (fun t ht => hok t (List.mem_cons_of_mem _ ht))
      exact ⟨act, by simpa [endA] using hact⟩

lemma visitMap_run {T : Type} (pA : List Char → Except ConfigError T) :
    ∀ (es : List FieldEntry) (o : Option KeyCode)
      (m : Option (Except ConfigError KeyModifier)) (a : Option (Except ConfigError T)),
      (∀ s, FieldEntry.onKey s ∈ es → isOkE (parseOn s) = true) →
      ¬ dupPending es o.isSome m.isSome a.isSome →
      visitMap pA es o m a = finish (endOn es o) (endM es m) (endA pA es a) := by
  intro es
  induction es with
  | nil => intro o m a _ _; rfl
  | cons e rest ih =>
    intro o m a hwf hnd
    cases e with
    | onKey s =>
      have ho : o = none := by
        cases o with
        | none => rfl
        | some k0 =>
          exfalso
          apply hnd
          left
          refine ⟨rfl, ?_⟩
          rw [countField_cons]
          simp [FieldEntry.field]
      subst ho
      obtain ⟨k, hk⟩ := parse_ok_exists (parseOn s) (hwf s (by simp))
      simp only [visitMap, Option.isSome_none, Bool.false_eq_true, if_false, hk]
      have hrec := ih (some k) m a (fun t ht => hwf t (List.mem_cons_of_mem _ ht)) ?_
      · rw [hrec]
        simp [endOn, endM, endA, hk, Except.toOption]
      · intro hdr
        apply hnd
        rcases hdr with ⟨-, h2⟩ | ⟨h1, h2⟩ | ⟨h1, h2⟩ | ⟨f, hf⟩
        · right; right; right
          refine ⟨KeyField.onKey, ?_⟩
          rw [countField_cons]
          simp [FieldEntry.field]
          omega
        · right; left
          refine ⟨h1, ?_⟩
          rw [countField_cons]
          simp [FieldEntry.field]
          omega
        · right; right; left
          refine ⟨h1, ?_⟩
          rw [countField_cons]
          simp [FieldEntry.field]
          omega
        · right; right; right
          refine ⟨f, ?_⟩
          rw [countField_cons]
          omega
    | modifier s =>
      have hm : m = none := by
        cases m with
        | none => rfl
        | some r0 =>
          exfalso
          apply hnd
          right; left
          refine ⟨rfl, ?_⟩
          rw [countField_cons]
          simp [FieldEntry.field]
      subst hm
      simp only [visitMap, Option.isSome_none, Bool.false_eq_true, if_false]
      have hrec := ih o (some (parseModifier s)) a
        (fun t ht => hwf t (List.mem_cons_of_mem _ ht)) ?_
      · rw [hrec]
        simp [endOn, endM, endA]
      · intro hdr
        apply hnd
        rcases hdr with ⟨h1, h2⟩ | ⟨-, h2⟩ | ⟨h1, h2⟩ | ⟨f, hf⟩
        · left
          refine ⟨h1, ?_⟩
          rw [countField_cons]
          simp [FieldEntry.field]
          omega
        · right; right; right
          refine ⟨KeyField.modifier, ?_⟩
          rw [countField_cons]
          simp [FieldEntry.field]
          omega
        · right; right; left
          refine ⟨h1, ?_⟩
          rw [countField_cons]
          simp [FieldEntry.field]
          omega
        · right; right; right
          refine ⟨f, ?_⟩
          rw [countField_cons]
          omega
    | action s =>
      have ha : a = none := by
        cases a with
        | none => rfl
        | some r0 =>
          exfalso
          apply hnd
          right; right; left
          refine ⟨rfl, ?_⟩
          rw [countField_cons]
          simp [FieldEntry.field]
      subst ha
      simp only [visitMap, Option.isSome_none, Bool.false_eq_true, if_false]
      have hrec := ih o m (some (pA s))
        (fun t ht => hwf t (List.mem_cons_of_mem _ ht)) ?_
      · rw [hrec]
        simp [endOn, endM, endA]
      · intro hdr
        apply hnd
        rcases hdr with ⟨h1, h2⟩ | ⟨h1, h2⟩ | ⟨-, h2⟩ | ⟨f, hf⟩
        · left
          refine ⟨h1, ?_⟩
          rw [countField_cons]
          simp [FieldEntry.field]
          omega
        · right; left
          refine ⟨h1, ?_⟩
          rw [countField_cons]
          simp [FieldEntry.field]
          omega
        · right; right; right
          refine ⟨KeyField.action, ?_⟩
          rw [countField_cons]
          simp [FieldEntry.field]
          omega
        · right; right; right
          refine ⟨f, ?_⟩
          rw [countField_cons]
          omega

/-- Counterexample to C5: an entry whose `on` field appears twice but whose
first `on` value is an invalid token fails with the token's own error
(`UnknownKeyToken`), not with `DuplicateField`. -/
theorem c5_counterexample :
    countField KeyField.onKey esDupBadOn = 2 ∧
    deserializeKeybinding esDupBadOn =
      PanicOr.ret (Except.error ConfigError.UnknownKeyToken) ∧
    isDupErr (deserializeKeybinding esDupBadOn) = false := by
  refine ⟨by decide, by decide, by decide⟩

/-- C5 (amended): provided every `on` value present parses successfully,
an entry with a repeated field fails with `DuplicateField`; with no
repetition, a missing `on` or `action` fails with `MissingField`; and with
exactly one well-formed `on` and one well-formed `action` and no
`modifier`, parsing succeeds with the `None` modifier default. -/
theorem c5_field_validation (es : List FieldEntry)
    (hwf : ∀ s, FieldEntry.onKey s ∈ es → isOkE (parseOn s) = true) :
    ((∃ f, 2 ≤ countField f es) → isDupErr (deserializeKeybinding es) = true) ∧
    ((∀ f, countField f es ≤ 1) →
      (countField KeyField.onKey es = 0 ∨ countField KeyField.action es = 0) →
      isMissErr (deserializeKeybinding es) = true) ∧
    ((∀ f, countField f es ≤ 1) → countField KeyField.onKey es = 1 →
      countField KeyField.action es = 1 → countField KeyField.modifier es = 0 →
      (∀ s, FieldEntry.action s ∈ es → isOkE (parseGeneralAction s) = true) →
      isOkNoModifier (deserializeKeybinding es) = true) := by
  have hnd : (∀ f, countField f es ≤ 1) → ¬ dupPending es false false false := by
    intro hle
    rintro (⟨h, -⟩ | ⟨h, -⟩ | ⟨h, -⟩ | ⟨f, hf⟩)
    · simp at h
    · simp at h
    · simp at h
    · have := hle f
      omega
  refine ⟨?_, ?_, ?_⟩
  · intro hdup
    exact visitMap_dup parseGeneralAction es none none none hwf
      (Or.inr (Or.inr (Or.inr hdup)))
  · intro hle hmiss
    unfold deserializeKeybinding
    rw [visitMap_run parseGeneralAction es none none none hwf (hnd hle)]
    rcases hmiss with h0 | h0
    · rw [endOn_count_zero es h0]
      simp [finish, isMissErr]
    · by_cases hon : countField KeyField.onKey es = 0
      · rw [endOn_count_zero es hon]
        simp [finish, isMissErr]
      · obtain ⟨k, hk⟩ := endOn_of_pos es (by omega) hwf
        rw [hk, endA_count_zero parseGeneralAction es h0]
        simp [finish, isMissErr]
  · intro hle h1 h2 h0 hact
    unfold deserializeKeybinding
    rw [visitMap_run parseGeneralAction es none none none hwf (hnd hle)]
    obtain ⟨k, hk⟩ := endOn_of_pos es (by omega) hwf
    obtain ⟨act, hact'⟩ := endA_of_pos parseGeneralAction es (by omega) hact
    rw [hk, hact', endM_count_zero es h0]
    simp [finish, isOkNoModifier]

/-- Witness for C5 (amended): an entry with `on` and `action` only parses
with the default modifier; a well-formed duplicated `on` is a duplicate
error. -/
theorem c5_witness :
    isOkNoModifier (deserializeKeybinding esNoModifier) = true ∧
    isDupErr (deserializeKeybinding esDupGoodOn) = true :=
  ⟨(c5_field_validation esNoModifier
      (by
        intro s hs
        simp [esNoModifier] at hs
        subst hs
        decide)).2.2
    (by intro f; cases f <;> decide) (by decide) (by decide) (by decide)
    (by
      intro s hs
      simp [esNoModifier] at hs
      subst hs
      decide),
   (c5_field_validation esDupGoodOn
      (by
        intro s hs
        simp [esDupGoodOn] at hs
        rcases hs with h | h <;> subst h <;> decide)).1
    ⟨KeyField.onKey, by decide⟩⟩

end Rustmission
